import Mathlib

/-!
Verification development for the `snapchat_dlp` story downloader
(`snapchat_dlp/snapchat_dlp.py`).  The Python class `SnapchatDL` is embedded
shallowly: JSON values become an inductive `Json`, Python exceptions become an
error type `PyErr` threaded through `Except`, stateful filesystem effects
(`os.makedirs`, metadata sidecar writes) become explicit state passing over
`FsState`, and the library entry points `re.findall` / `json.loads` are
parameters of the embedded functions, so every theorem quantifies over their
behaviour.  The helper module `utils.py` of the repository is not part of the
sources at hand; its three members used here (`strf_time`, `MEDIA_TYPE`,
`dump_response`) and the exception classes are modelled from the spec and
marked as such in their doc comments.
-/

namespace SnapchatDLP

/-- Embedded JSON values (the decoded `__NEXT_DATA__` payload).  JSON numbers
are modelled as integers; the story payloads relevant here carry only strings,
objects and arrays. -/
inductive Json where
  | null : Json
  | bool : Bool → Json
  | num : Int → Json
  | str : String → Json
  | arr : List Json → Json
  | obj : List (String × Json) → Json
deriving BEq

/-- Python exception kinds that can arise in `snapchat_dlp.py`.
`userNotFound`, `apiResponseError` model the repository's own exception
classes from `utils.py` (absent from the sources).
Modelled from the spec: §7's taxonomy lists `NotFoundError` and
`MalformedResponseError` (raised as `APIResponseError` in the code) as
distinct error kinds; they are therefore distinct constructors, unrelated to
the builtin `IndexError`/`KeyError`/`ValueError` kinds. -/
inductive PyErr where
  | indexError
  | keyError
  | valueError
  | typeError
  | userNotFound
  | apiResponseError
deriving DecidableEq

/-- Python `d[k]` subscripting of a JSON value by a string key:
a `KeyError` when the key is absent from a dict, a `TypeError` when the
value is not a dict (string subscripts are invalid for lists and strings). -/
def Json.getItem : Json → String → Except PyErr Json
  | .obj kvs, k =>
    match kvs.lookup k with
    | some v => .ok v
    | none => .error .keyError
  | _, _ => .error .typeError

/-- Python `k in d` membership test: key membership for dicts, element
membership for lists, substring test for strings, `TypeError` otherwise. -/
def Json.hasKey : Json → String → Except PyErr Bool
  | .obj kvs, k => .ok (kvs.any (fun kv => kv.1 == k))
  | .arr xs, k => .ok (xs.any (fun x => x == Json.str k))
  | .str s, k => .ok (decide (k.data <:+: s.data))
  | _, _ => .error .typeError

/-- Python truthiness (`if not stories`): empty containers, empty strings,
zero, `False` and `None` are falsy. -/
def Json.isFalsy : Json → Bool
  | .null => true
  | .bool b => !b
  | .num n => n == 0
  | .str s => s.isEmpty
  | .arr xs => xs.isEmpty
  | .obj kvs => kvs.isEmpty

/-- Python `len(x)` for the container kinds; `TypeError` otherwise. -/
def Json.pyLen : Json → Except PyErr Nat
  | .arr xs => .ok xs.length
  | .obj kvs => .ok kvs.length
  | .str s => .ok s.length
  | _ => .error .typeError

/-- Python iteration `for x in stories`: list elements, dict keys, or the
characters of a string; `TypeError` otherwise. -/
def Json.toIter : Json → Except PyErr (List Json)
  | .arr xs => .ok xs
  | .obj kvs => .ok (kvs.map (fun kv => Json.str kv.1))
  | .str s => .ok (s.data.map (fun c => Json.str (String.mk [c])))
  | _ => .error .typeError

/-- Python `dict(x)`: a shallow copy of a dict's entries; `TypeError` for the
non-mapping JSON values that occur here. -/
def dictCopy : Json → Except PyErr (List (String × Json))
  | .obj kvs => .ok kvs
  | _ => .error .typeError

/-- Python dict assignment `d[k] = v`: replaces the entry in place when the
key is present, otherwise appends it (insertion order preserved). -/
def dictSet (kvs : List (String × Json)) (k : String) (v : Json) :
    List (String × Json) :=
  if kvs.any (fun kv => kv.1 == k) then
    kvs.map (fun kv => if kv.1 == k then (k, v) else kv)
  else
    kvs ++ [(k, v)]

/-- Python `str(x)` as used by `str.format` on interpolated arguments.  The
story fields interpolated into filenames are strings; container rendering is
abbreviated (never reached by well-formed story items). -/
def pyStr : Json → String
  | .str s => s
  | .num n => toString n
  | .bool true => "True"
  | .bool false => "False"
  | .null => "None"
  | .arr _ => "[...]"
  | .obj _ => "\x7b...\x7d"

/-- The decimal digit characters. -/
def digitChar : Nat → Char
  | 0 => '0' | 1 => '1' | 2 => '2' | 3 => '3' | 4 => '4'
  | 5 => '5' | 6 => '6' | 7 => '7' | 8 => '8' | 9 => '9'
  | _ => '*'

/-- Inverse of `digitChar` on decimal digits (10 for non-digits). -/
def charDigit : Char → Nat
  | '0' => 0 | '1' => 1 | '2' => 2 | '3' => 3 | '4' => 4
  | '5' => 5 | '6' => 6 | '7' => 7 | '8' => 8 | '9' => 9
  | _ => 10

/-- Accumulating decimal string parser (most significant digit first). -/
def digitsValAux : List Char → Nat → Option Nat
  | [], acc => some acc
  | c :: rest, acc =>
    if charDigit c < 10 then digitsValAux rest (10 * acc + charDigit c)
    else none

/-- Python `int(s)` on a decimal string literal (optional leading minus;
surrounding whitespace and a leading plus are not modelled). -/
def strToInt? (s : String) : Option Int :=
  match s.data with
  | [] => none
  | '-' :: [] => none
  | '-' :: c :: rest => (digitsValAux (c :: rest) 0).map (fun n => -(n : Int))
  | c :: rest => (digitsValAux (c :: rest) 0).map (fun n => (n : Int))

/-- Python `int(x)` on JSON values: integers pass through, numeric strings
are parsed (`ValueError` otherwise), booleans coerce, containers raise
`TypeError`. -/
def pyInt : Json → Except PyErr Int
  | .num n => .ok n
  | .str s =>
    match strToInt? s with
    | some n => .ok n
    | none => .error .valueError
  | .bool b => .ok (if b then 1 else 0)
  | _ => .error .typeError

/-- POSIX `os.path.join a b`: `b` wins when absolute; otherwise a separator
is inserted unless `a` is empty or already ends with one. -/
def os_path_join (a b : String) : String :=
  if b.data.head? = some '/' then b
  else if a.data = [] ∨ a.data.getLast? = some '/' then a ++ b
  else a ++ "/" ++ b

/-- Filesystem state: the set of directories created so far and the metadata
sidecar files written so far (path and JSON payload). -/
structure FsState where
  dirs : List String
  files : List (String × Json)

/-- `os.makedirs(p, exist_ok=True)`: idempotent directory creation. -/
def makedirs (p : String) (st : FsState) : FsState :=
  if p ∈ st.dirs then st else { st with dirs := p :: st.dirs }

/-- Modelled from the spec: `dump_response` of the missing `utils.py`
persists an item's raw metadata as a sidecar file next to its media output
(spec §6: "optional JSON sidecar files").  Embedded as recording the
(path, payload) pair in the filesystem state. -/
def dump_response (payload : Json) (path : String) (st : FsState) : FsState :=
  { st with files := (path, payload) :: st.files }

/-! ### Calendar arithmetic

Modelled from the spec: `strf_time` lives in the repository's `utils.py`,
which is absent from the sources; the spec (§4.3, §6) says the timestamp is
"seconds since epoch" rendered as a calendar date `YYYY-MM-DD` and a
`date_time` string.  The model converts epoch seconds to a proleptic
Gregorian UTC date.  Recursions use an explicit fuel argument so that all
definitions reduce by kernel computation; the fuel provably suffices on the
modelled domain (timestamps representable by Python's `datetime`, i.e. up to
9999-12-31T23:59:59Z = 253402300799). -/

/-- Gregorian leap-year test. -/
def isLeap (y : Nat) : Bool := (y % 4 == 0 && y % 100 != 0) || y % 400 == 0

/-- Number of days in year `y`. -/
def daysInYear (y : Nat) : Nat := if isLeap y then 366 else 365

/-- Total days in the `n` consecutive years starting at year `y`. -/
def yearsDays (y : Nat) : Nat → Nat
  | 0 => 0
  | n + 1 => daysInYear y + yearsDays (y + 1) n

/-- Splits a day count into (year, day-of-year), starting the count at year
`y`; `fuel ≥ days` guarantees the recursion completes. -/
def yearSplitAux : Nat → Nat → Nat → Nat × Nat
  | 0, y, days => (y, days)
  | fuel + 1, y, days =>
    if days < daysInYear y then (y, days)
    else yearSplitAux fuel (y + 1) (days - daysInYear y)

/-- Year and day-of-year of a day count measured from 1970-01-01. -/
def yearSplit (days : Nat) : Nat × Nat := yearSplitAux (days + 1) 1970 days

/-- Month lengths, January first. -/
def monthLengths (leap : Bool) : List Nat :=
  [31, if leap then 29 else 28, 31, 30, 31, 30, 31, 31, 30, 31, 30, 31]

/-- Splits a day-of-year into (month, day-of-month counted from 0), given the
month lengths still ahead and the number of the first of them. -/
def monthSplit : List Nat → Nat → Nat → Nat × Nat
  | [], m, d => (m, d)
  | len :: rest, m, d =>
    if d < len then (m, d) else monthSplit rest (m + 1) (d - len)

/-- The six broken-down UTC fields of an epoch timestamp. -/
structure DF where
  year : Nat
  month : Nat
  day : Nat
  hour : Nat
  minute : Nat
  second : Nat

/-- Broken-down UTC date and time of an epoch timestamp (seconds). -/
def dateFields (t : Nat) : DF :=
  let days := t / 86400
  let sod := t % 86400
  let ys := yearSplit days
  let ms := monthSplit (monthLengths (isLeap ys.1)) 1 ys.2
  ⟨ys.1, ms.1, ms.2 + 1, sod / 3600, sod % 3600 / 60, sod % 60⟩

/-- Decimal digits of `n`, least significant first; `fuel ≥ n` guarantees
completion. -/
def natDigitsRev : Nat → Nat → List Nat
  | _, 0 => []
  | 0, _ + 1 => []
  | fuel + 1, n + 1 => (n + 1) % 10 :: natDigitsRev fuel ((n + 1) / 10)

/-- Decimal representation of a natural number as characters. -/
def natChars (n : Nat) : List Char :=
  if n = 0 then ['0'] else ((natDigitsRev n n).reverse.map digitChar)

/-- Two-digit zero-padded decimal representation (for values below 100). -/
def pad2 (n : Nat) : List Char :=
  if n < 10 then ['0', digitChar n] else natChars n

/-- Value of a most-significant-first decimal character string. -/
def natVal (cs : List Char) : Nat :=
  cs.foldl (fun a c => 10 * a + charDigit c) 0

/-- Value of a least-significant-first decimal digit list. -/
def ofVal (l : List Nat) : Nat := l.foldr (fun d r => d + 10 * r) 0

/-- Expansion of one `strftime` directive character. -/
def directive (t : Nat) : Char → List Char
  | 'Y' => natChars (dateFields t).year
  | 'm' => pad2 (dateFields t).month
  | 'd' => pad2 (dateFields t).day
  | 'H' => pad2 (dateFields t).hour
  | 'M' => pad2 (dateFields t).minute
  | 'S' => pad2 (dateFields t).second
  | c => ['%', c]

/-- `strftime` scanner: replaces `%`-directives, copies other characters. -/
def strfRun (t : Nat) : List Char → List Char
  | '%' :: c :: rest => directive t c ++ strfRun t rest
  | c :: rest => c :: strfRun t rest
  | [] => []

/-- Modelled from the spec: `strf_time(timestamp, fmt)` of the missing
`utils.py` renders an epoch timestamp through a `strftime`-style format
(spec §4.3: date and `date_time` formatting of `item.timestampSeconds`). -/
def strf_time (t : Nat) (fmt : String) : String := ⟨strfRun t fmt.data⟩

/-- Python `str.format` with positional `\x7b\x7d` placeholders, as applied
to the filename template. -/
def pyFormat : List Char → List String → List Char
  | [], _ => []
  | '\x7b' :: '\x7d' :: rest, a :: args => a.data ++ pyFormat rest args
  | c :: rest, args => c :: pyFormat rest args

/-- String-level wrapper of `pyFormat`. -/
def pyFormatS (s : String) (args : List String) : String :=
  ⟨pyFormat s.data args⟩

/-! ### The `SnapchatDL` class -/

/-- Modelled from the spec: the recognized-kind table `MEDIA_TYPE` of the
missing `utils.py` (spec §3: media kinds IMAGE and VIDEO with designated
extensions; §4.3: "total over all recognized media kinds", unrecognized kinds
map to "a clearly-marked fallback extension rather than failing"). -/
def MEDIA_TYPE : List (String × String) := [("IMAGE", "jpg"), ("VIDEO", "mp4")]

/-- The fallback extension for unrecognized media kinds (spec §3/§4.3). -/
def fallbackExt : String := "unk"

/-- Extension lookup applied at `MEDIA_TYPE[media_type]` in
`_download_media`, total with the spec's fallback. -/
def mediaTypeExt : Json → String
  | .str s => (MEDIA_TYPE.lookup s).getD fallbackExt
  | _ => fallbackExt

/-- The constructor arguments of `SnapchatDL.__init__` (defaults as in the
source; `directory_prefix` is stored after `os.path.abspath`/`normpath`
normalization, which is outside this model — the field holds the stored
value). -/
structure Config where
  directory_prefix : String := "."
  max_workers : Nat := 2
  limit_story : Int := -1
  sleep_interval : Nat := 1
  quiet : Bool := false
  dump_json : Bool := false

/-- The `self.regexp_web_json` pattern of `SnapchatDL.__init__`. -/
def regexp_web_json : String :=
  "<script\\s*id=\"__NEXT_DATA__\"\\s*type=\"application\\/json\">([^<]+)<\\/script>"

/-- An HTTP response as seen by `_web_fetch_story` (status and body). -/
structure HttpResponse where
  status_code : Nat
  text : String

/-- The distinguishable log lines emitted by `_web_fetch_story` and
`download`, in source order of their `logger` calls. -/
inductive LogEvent where
  | notFound : String → LogEvent
  | fetchFailed : String → Nat → LogEvent
  | parseError : String → LogEvent
  | couldNotFetch : String → LogEvent
  | noStories : String → LogEvent
  | storyCount : String → Nat → LogEvent
  | downloadedCount : Nat → String → LogEvent
deriving DecidableEq

/-- The inner helper `util_web_user_info` of `_web_fetch_story`: selects the
user-profile variant named by its `$case` discriminator, or raises
`UserNotFoundError` when `pageProps` has no `userProfile` field. -/
def util_web_user_info (content : Json) : Except PyErr Json := do
  let props ← content.getItem "props"
  let pageProps ← props.getItem "pageProps"
  if (← pageProps.hasKey "userProfile") then
    let user_profile ← pageProps.getItem "userProfile"
    let field_id ← user_profile.getItem "$case"
    match field_id with
    | .str fid => user_profile.getItem fid
    | .arr _ => Except.error .typeError
    | .obj _ => Except.error .typeError
    | _ => Except.error .keyError
  else
    Except.error .userNotFound

/-- The inner helper `util_web_story` of `_web_fetch_story`: the story's
`snapList` when a story field is present, an empty list otherwise. -/
def util_web_story (content : Json) : Except PyErr Json := do
  let props ← content.getItem "props"
  let pageProps ← props.getItem "pageProps"
  if (← pageProps.hasKey "story") then
    let story ← pageProps.getItem "story"
    story.getItem "snapList"
  else
    pure (Json.arr [])

/-- The exception classes caught by the `except (IndexError, KeyError,
ValueError)` clause of `_web_fetch_story`. -/
def caughtByParseHandler : PyErr → Bool
  | .indexError => true
  | .keyError => true
  | .valueError => true
  | _ => false

/-- `_web_fetch_story`, parameterized over the library functions
`re.findall` (pattern, text ↦ captured groups) and `json.loads`
(text ↦ decoded value, `none` for a `ValueError`).  Returns the log lines it
emitted together with either the `(stories, user_info)` pair or the escaping
exception.  `requests.codes.ok` is 200. -/
def web_fetch_story (find_all : String → String → List String)
    (loads : String → Option Json) (username : String)
    (response : HttpResponse) : List LogEvent × Except PyErr (Json × Json) :=
  if response.status_code ≠ 200 then
    if response.status_code = 404 then
      ([.notFound username], .error .apiResponseError)
    else
      ([.fetchFailed username response.status_code], .error .apiResponseError)
  else
    let response_json_raw := find_all regexp_web_json response.text
    let attempt : Except PyErr (Json × Json) := do
      let raw0 ← match response_json_raw with
        | [] => Except.error PyErr.indexError
        | x :: _ => Except.ok x
      let response_json ← match loads raw0 with
        | some j => Except.ok j
        | none => Except.error PyErr.valueError
      let user_info ← util_web_user_info response_json
      let stories ← util_web_story response_json
      Except.ok (stories, user_info)
    match attempt with
    | .ok r => ([], .ok r)
    | .error e =>
      if caughtByParseHandler e then
        ([.parseError username], .error .apiResponseError)
      else
        ([], .error e)

/-- The filename template of `_download_media` (braces written as character
escapes). -/
def filenameTemplate : String := "%Y-%m-%d_%H-%M-%S \x7b\x7d \x7b\x7d.\x7b\x7d"

/-- `_download_media`: extracts the item fields, derives the dated directory
and the output filename, creates the directory, optionally writes the JSON
sidecar from a shallow copy of the item, and returns
`(media_url, media_output)` together with the updated filesystem state.
Timestamps are taken through `Int.toNat`; the model covers the nonnegative
`datetime`-representable range (see the calendar section). -/
def download_media (cfg : Config) (media : Json) (username : String)
    (snap_user : Json) (st : FsState) :
    Except PyErr ((Json × String) × FsState) := do
  let snap_id ← (← media.getItem "snapId").getItem "value"
  let media_url ← (← media.getItem "snapUrls").getItem "mediaUrl"
  let media_type ← media.getItem "snapMediaType"
  let timestamp ← pyInt (← (← media.getItem "timestampInSec").getItem "value")
  let date_str := strf_time timestamp.toNat "%Y-%m-%d"
  let dir_name := os_path_join (os_path_join cfg.directory_prefix username) date_str
  let st1 := makedirs dir_name st
  let filename := pyFormatS (strf_time timestamp.toNat filenameTemplate)
    [pyStr snap_id, username, mediaTypeExt media_type]
  let st2 ←
    if cfg.dump_json then do
      let filename_json := os_path_join dir_name (filename ++ ".json")
      let media_json ← dictCopy media
      pure (dump_response (Json.obj (dictSet media_json "snapUser" snap_user))
        filename_json st1)
    else
      pure st1
  let media_output := os_path_join dir_name filename
  Except.ok ((media_url, media_output), st2)

/-- The observable outcome of a `download(username)` call that returned
normally: the emitted log lines, the download tasks submitted to the pool
(in submission order, each `(media_url, media_output, sleep_interval)`), and
the final filesystem state. -/
structure DLResult where
  logs : List LogEvent
  tasks : List (Json × String × Nat)
  fs : FsState

/-- `download(username)`, parameterized like `web_fetch_story` over the
response and the library functions.  An `Except.error` outcome is an
exception propagating uncaught out of `download`; the `KeyboardInterrupt`
handler is not modelled (no interrupts occur in the model). -/
def download (find_all : String → String → List String)
    (loads : String → Option Json) (cfg : Config) (username : String)
    (response : HttpResponse) (st : FsState) : Except PyErr DLResult :=
  let fetched := web_fetch_story find_all loads username response
  match fetched.2 with
  | .error .apiResponseError =>
    .ok ⟨fetched.1 ++ [.couldNotFetch username], [], st⟩
  | .error e => .error e
  | .ok (stories, snap_user) =>
    if stories.isFalsy then
      .ok ⟨fetched.1 ++ (if !cfg.quiet then [.noStories username] else []),
        [], st⟩
    else do
      let n ← stories.pyLen
      let items ← stories.toIter
      let r ← items.foldlM
        (fun (acc : List (Json × String × Nat) × FsState) media => do
          let r ← download_media cfg media username snap_user acc.2
          pure (acc.1 ++ [(r.1.1, r.1.2, cfg.sleep_interval)], r.2))
        ([], st)
      Except.ok ⟨fetched.1 ++ [.storyCount username n, .downloadedCount n username],
        r.1, r.2⟩

/-! ### Calendar correctness lemmas -/

theorem daysInYear_ge (y : Nat) : 365 ≤ daysInYear y := by
  unfold daysInYear; split <;> omega

theorem yearsDays_add (a b y : Nat) :
    yearsDays y (a + b) = yearsDays y a + yearsDays (y + a) b := by
  induction a generalizing y with
  | zero => simp [yearsDays]
  | succ a ih =>
    have h1 : a + 1 + b = (a + b) + 1 := by omega
    rw [h1, yearsDays, yearsDays, ih (y + 1)]
    have h2 : y + 1 + a = y + (a + 1) := by omega
    rw [h2]; omega

theorem isLeap_add_400 (y : Nat) : isLeap (y + 400) = isLeap y := by
  unfold isLeap
  rw [show (y + 400) % 4 = y % 4 by omega, show (y + 400) % 100 = y % 100 by omega,
    show (y + 400) % 400 = y % 400 by omega]

theorem daysInYear_add_400 (y : Nat) : daysInYear (y + 400) = daysInYear y := by
  unfold daysInYear; rw [isLeap_add_400]

theorem yearsDays_add_400 (n : Nat) : ∀ y, yearsDays (y + 400) n = yearsDays y n := by
  induction n with
  | zero => intro y; rfl
  | succ n ih =>
    intro y
    rw [yearsDays, yearsDays, daysInYear_add_400, show y + 400 + 1 = y + 1 + 400 by omega,
      ih (y + 1)]

set_option maxRecDepth 4000 in
theorem yearsDays_1970_400 : yearsDays 1970 400 = 146097 := by decide

set_option maxRecDepth 4000 in
theorem yearsDays_1970_30 : yearsDays 1970 30 = 10957 := by decide

theorem yearsDays_shift_mul (k n : Nat) :
    yearsDays (1970 + 400 * k) n = yearsDays 1970 n := by
  induction k with
  | zero => rfl
  | succ k ih =>
    rw [show 1970 + 400 * (k + 1) = 1970 + 400 * k + 400 by omega,
      yearsDays_add_400, ih]

theorem yearsDays_1970_mul400 (k : Nat) : yearsDays 1970 (400 * k) = 146097 * k := by
  induction k with
  | zero => rfl
  | succ k ih =>
    rw [show 400 * (k + 1) = 400 * k + 400 by omega, yearsDays_add (400 * k) 400 1970,
      ih, yearsDays_shift_mul, yearsDays_1970_400]
    omega

theorem yearsDays_1970_8030 : yearsDays 1970 8030 = 2932897 := by
  rw [show (8030 : Nat) = 400 * 20 + 30 by omega, yearsDays_add (400 * 20) 30 1970,
    yearsDays_1970_mul400, yearsDays_shift_mul, yearsDays_1970_30]

theorem yearSplitAux_spec (fuel : Nat) : ∀ y days, days ≤ fuel →
    ∃ n r, yearSplitAux fuel y days = (y + n, r) ∧
      yearsDays y n + r = days ∧ r < daysInYear (y + n) := by
  induction fuel with
  | zero =>
    intro y days h
    refine ⟨0, days, by simp [yearSplitAux], by simp [yearsDays], ?_⟩
    have := daysInYear_ge (y + 0)
    omega
  | succ fuel ih =>
    intro y days h
    rw [yearSplitAux]
    split
    · exact ⟨0, days, by simp, by simp [yearsDays], by simpa using ‹days < daysInYear y›⟩
    · rename_i hge
      have hd := daysInYear_ge y
      obtain ⟨n, r, heq, hsum, hlt⟩ := ih (y + 1) (days - daysInYear y) (by omega)
      refine ⟨n + 1, r, ?_, ?_, ?_⟩
      · rw [heq]; congr 1; omega
      · rw [yearsDays]; omega
      · have : y + 1 + n = y + (n + 1) := by omega
        rwa [this] at hlt

theorem yearSplit_spec (days : Nat) :
    ∃ n r, yearSplit days = (1970 + n, r) ∧
      yearsDays 1970 n + r = days ∧ r < daysInYear (1970 + n) := by
  exact yearSplitAux_spec (days + 1) 1970 days (by omega)

theorem yearSplit_inj (d1 d2 : Nat) (h : yearSplit d1 = yearSplit d2) : d1 = d2 := by
  obtain ⟨n1, r1, he1, hs1, _⟩ := yearSplit_spec d1
  obtain ⟨n2, r2, he2, hs2, _⟩ := yearSplit_spec d2
  rw [he1, he2] at h
  have hn : n1 = n2 := by
    have := congrArg Prod.fst h; simp at this; omega
  have hr : r1 = r2 := by
    have := congrArg Prod.snd h; simpa using this
  subst hn; omega

theorem yearSplit_year_lb (d : Nat) : 1970 ≤ (yearSplit d).1 := by
  obtain ⟨n, r, he, _, _⟩ := yearSplit_spec d
  rw [he]; omega

theorem yearSplit_year_ub (d : Nat) (h : d ≤ 2932896) : (yearSplit d).1 < 10000 := by
  obtain ⟨n, r, he, hs, _⟩ := yearSplit_spec d
  rw [he]
  by_contra hge
  have hn : 8030 ≤ n := by omega
  have h2 := yearsDays_add 8030 (n - 8030) 1970
  rw [show 8030 + (n - 8030) = n by omega, yearsDays_1970_8030] at h2
  omega

/-! ### Month split lemmas -/

theorem monthSplit_spec : ∀ (Ls : List Nat) (m d : Nat), d < Ls.sum →
    ∃ i r, monthSplit Ls m d = (m + i, r) ∧ (Ls.take i).sum + r = d ∧
      i < Ls.length ∧ r < Ls.getD i 0 := by
  intro Ls
  induction Ls with
  | nil => intro m d h; simp at h
  | cons len rest ih =>
    intro m d h
    rw [monthSplit]
    split
    · exact ⟨0, d, by simp, by simp, by simp, by simpa using ‹d < len›⟩
    · rename_i hge
      have hsum : d - len < rest.sum := by simp [List.sum_cons] at h; omega
      obtain ⟨i, r, heq, hs, hi, hr⟩ := ih (m + 1) (d - len) hsum
      refine ⟨i + 1, r, ?_, ?_, by simp; omega, by simpa using hr⟩
      · rw [heq]; congr 1; omega
      · simp [List.take_succ_cons, List.sum_cons]; omega

theorem monthLengths_sum (leap : Bool) :
    (monthLengths leap).sum = if leap then 366 else 365 := by
  cases leap <;> decide

theorem monthLengths_length (leap : Bool) : (monthLengths leap).length = 12 := by
  cases leap <;> decide

theorem monthLengths_getD_le (leap : Bool) (i : Nat) :
    (monthLengths leap).getD i 0 ≤ 31 := by
  by_cases h : i < 12
  · cases leap <;> (interval_cases i <;> decide)
  · rw [List.getD_eq_default]
    · omega
    · rw [monthLengths_length]; omega

/-! ### Decimal digit string lemmas -/

theorem natDigitsRev_ofVal (fuel : Nat) : ∀ n, n ≤ fuel →
    ofVal (natDigitsRev fuel n) = n := by
  induction fuel with
  | zero =>
    intro n h
    have : n = 0 := by omega
    subst this; rfl
  | succ fuel ih =>
    intro n h
    match n with
    | 0 => rfl
    | m + 1 =>
      rw [natDigitsRev]
      have hle : (m + 1) / 10 ≤ fuel := by omega
      simp only [ofVal, List.foldr_cons]
      have := ih ((m + 1) / 10) hle
      simp only [ofVal] at this
      rw [this]
      omega

theorem natDigitsRev_lt10 (fuel : Nat) : ∀ n d, d ∈ natDigitsRev fuel n → d < 10 := by
  induction fuel with
  | zero =>
    intro n d h
    match n with
    | 0 => simp [natDigitsRev] at h
    | m + 1 => simp [natDigitsRev] at h
  | succ fuel ih =>
    intro n d h
    match n with
    | 0 => simp [natDigitsRev] at h
    | m + 1 =>
      rw [natDigitsRev] at h
      rcases List.mem_cons.mp h with h1 | h2
      · subst h1; omega
      · exact ih _ d h2

theorem natDigitsRev_ne_nil (fuel n : Nat) (h0 : 0 < n) (hle : n ≤ fuel) :
    natDigitsRev fuel n ≠ [] := by
  cases fuel with
  | zero => omega
  | succ fuel =>
    cases n with
    | zero => omega
    | succ m => rw [natDigitsRev]; simp

theorem natDigitsRev_msd (fuel : Nat) : ∀ n, 0 < n → n ≤ fuel →
    10 ^ ((natDigitsRev fuel n).length - 1) ≤ n := by
  induction fuel with
  | zero => intro n h0 h; omega
  | succ fuel ih =>
    intro n h0 h
    match n with
    | m + 1 =>
      rw [natDigitsRev]
      rcases Nat.eq_zero_or_pos ((m + 1) / 10) with hq | hq
      · rw [hq]
        simp [natDigitsRev]
      · have hle : (m + 1) / 10 ≤ fuel := by omega
        have hne := natDigitsRev_ne_nil fuel ((m + 1) / 10) hq hle
        have hlen : 1 ≤ (natDigitsRev fuel ((m + 1) / 10)).length :=
          List.length_pos.mpr hne
        have := ih ((m + 1) / 10) hq hle
        have hpow : 10 ^ (natDigitsRev fuel ((m + 1) / 10)).length ≤
            10 * ((m + 1) / 10) := by
          calc 10 ^ (natDigitsRev fuel ((m + 1) / 10)).length
              = 10 * 10 ^ ((natDigitsRev fuel ((m + 1) / 10)).length - 1) := by
                rw [← pow_succ']; congr 1; omega
            _ ≤ 10 * ((m + 1) / 10) := by omega
        have h10 : 10 * ((m + 1) / 10) ≤ m + 1 := by omega
        simp only [List.length_cons, Nat.add_sub_cancel]
        omega

theorem ofVal_lt (l : List Nat) (h : ∀ d ∈ l, d < 10) :
    ofVal l < 10 ^ l.length := by
  induction l with
  | nil => simp [ofVal]
  | cons d t ih =>
    have hd : d < 10 := h d (by simp)
    have ht := ih (fun x hx => h x (by simp [hx]))
    simp only [ofVal, List.foldr_cons] at *
    rw [List.length_cons, pow_succ]
    omega

theorem charDigit_digitChar (d : Nat) (h : d < 10) : charDigit (digitChar d) = d := by
  interval_cases d <;> rfl

theorem natVal_rev_map (l : List Nat) (h : ∀ d ∈ l, d < 10) :
    natVal ((l.reverse).map digitChar) = ofVal l := by
  induction l with
  | nil => rfl
  | cons d t ih =>
    have hd : d < 10 := h d (by simp)
    have ht := ih (fun x hx => h x (by simp [hx]))
    simp only [List.reverse_cons, List.map_append, List.map_cons, List.map_nil]
    simp only [natVal, List.foldl_append, List.foldl_cons, List.foldl_nil]
    simp only [natVal] at ht
    rw [ht, charDigit_digitChar d hd]
    simp only [ofVal, List.foldr_cons]
    omega

theorem natVal_natChars (n : Nat) : natVal (natChars n) = n := by
  by_cases h : n = 0
  · subst h; rfl
  · rw [natChars, if_neg h]
    rw [natVal_rev_map _ (fun d hd => natDigitsRev_lt10 n n d hd)]
    exact natDigitsRev_ofVal n n le_rfl

theorem natChars_len (n k : Nat) (hlb : 10 ^ k ≤ n) (hub : n < 10 ^ (k + 1)) :
    (natChars n).length = k + 1 := by
  have h0 : 0 < n := lt_of_lt_of_le (Nat.pos_pow_of_pos k (by omega)) hlb
  rw [natChars, if_neg (by omega)]
  rw [List.length_map, List.length_reverse]
  set L := (natDigitsRev n n).length with hL
  have hval := natDigitsRev_ofVal n n le_rfl
  have hup : n < 10 ^ L := hval ▸ ofVal_lt _ (fun d hd => natDigitsRev_lt10 n n d hd)
  have hlo : 10 ^ (L - 1) ≤ n := natDigitsRev_msd n n h0 le_rfl
  have hk_lt_L : k < L := by
    by_contra hc
    have : 10 ^ L ≤ 10 ^ k := Nat.pow_le_pow_right (by omega) (by omega)
    omega
  have hL_le : L - 1 ≤ k := by
    by_contra hc
    have : 10 ^ (k + 1) ≤ 10 ^ (L - 1) := Nat.pow_le_pow_right (by omega) (by omega)
    omega
  omega

theorem natChars_digits (n : Nat) : ∀ c ∈ natChars n, charDigit c < 10 := by
  intro c hc
  by_cases h : n = 0
  · subst h; simp [natChars] at hc; subst hc; decide
  · rw [natChars, if_neg h] at hc
    obtain ⟨d, hd, rfl⟩ := List.mem_map.mp hc
    have : d < 10 := natDigitsRev_lt10 n n d (List.mem_reverse.mp hd)
    rw [charDigit_digitChar d this]; exact this

theorem pad2_len (n : Nat) (h : n < 100) : (pad2 n).length = 2 := by
  rw [pad2]
  split
  · rfl
  · exact natChars_len n 1 (by omega) (by omega)

theorem natVal_pad2 (n : Nat) (h : n < 100) : natVal (pad2 n) = n := by
  rw [pad2]
  split
  · rename_i h10
    simp only [natVal, List.foldl_cons, List.foldl_nil]
    rw [show charDigit '0' = 0 from rfl, charDigit_digitChar n (by omega)]
    omega
  · exact natVal_natChars n

theorem pad2_digits (n : Nat) (h : n < 100) : ∀ c ∈ pad2 n, charDigit c < 10 := by
  intro c hc
  rw [pad2] at hc
  split at hc
  · rcases List.mem_cons.mp hc with h1 | h2
    · subst h1; decide
    · simp at h2; subst h2
      rename_i h10
      rw [charDigit_digitChar n (by omega)]; omega
  · exact natChars_digits n c hc

/-! ### Shape of the computed names -/

theorem ok_bind {α β : Type} (a : α) (f : α → Except PyErr β) :
    (Except.ok a >>= f : Except PyErr β) = f a := rfl

theorem getItem_ok_obj (j v : Json) (k : String) (h : j.getItem k = .ok v) :
    ∃ kvs, j = .obj kvs := by
  cases j <;> first
    | exact ⟨_, rfl⟩
    | simp [Json.getItem] at h

/-- The `%Y-%m-%d` rendering of a timestamp, as a character list. -/
def dateChars (t : Nat) : List Char :=
  natChars (dateFields t).year ++ '-' :: pad2 (dateFields t).month ++
    '-' :: pad2 (dateFields t).day

/-- The `%Y-%m-%d_%H-%M-%S` rendering of a timestamp, as a character list. -/
def timeChars (t : Nat) : List Char :=
  dateChars t ++ '_' :: pad2 (dateFields t).hour ++
    '-' :: pad2 (dateFields t).minute ++ '-' :: pad2 (dateFields t).second

/-- The `%Y-%m-%d` rendering of a timestamp. -/
def dateStr (t : Nat) : String := ⟨dateChars t⟩

/-- The `%Y-%m-%d_%H-%M-%S` rendering of a timestamp. -/
def timeStr (t : Nat) : String := ⟨timeChars t⟩

theorem strf_time_date (t : Nat) : strf_time t "%Y-%m-%d" = dateStr t := by
  show String.mk (strfRun t ['%', 'Y', '-', '%', 'm', '-', '%', 'd']) = dateStr t
  simp [strfRun, directive, dateStr, dateChars]

theorem strf_time_datetime (t : Nat) :
    strf_time t "%Y-%m-%d_%H-%M-%S" = timeStr t := by
  show String.mk (strfRun t ['%', 'Y', '-', '%', 'm', '-', '%', 'd', '_',
    '%', 'H', '-', '%', 'M', '-', '%', 'S']) = timeStr t
  simp [strfRun, directive, timeStr, timeChars, dateChars]

theorem monthLengths_sum_eq (y : Nat) :
    (monthLengths (isLeap y)).sum = daysInYear y := by
  rw [monthLengths_sum, daysInYear]

theorem dateFields_spec (t : Nat) :
    1970 ≤ (dateFields t).year ∧
    1 ≤ (dateFields t).month ∧ (dateFields t).month ≤ 12 ∧
    1 ≤ (dateFields t).day ∧ (dateFields t).day ≤ 31 ∧
    (dateFields t).hour < 24 ∧ (dateFields t).minute < 60 ∧
    (dateFields t).second < 60 := by
  obtain ⟨n, r, he, hs, hlt⟩ := yearSplit_spec (t / 86400)
  have hsum : r < (monthLengths (isLeap (1970 + n))).sum := by
    rw [monthLengths_sum_eq]; exact hlt
  obtain ⟨i, r2, hme, hms, hil, hrl⟩ :=
    monthSplit_spec (monthLengths (isLeap (1970 + n))) 1 r hsum
  have hgd := monthLengths_getD_le (isLeap (1970 + n)) i
  rw [monthLengths_length] at hil
  simp only [dateFields, he]
  rw [hme]
  try dsimp only
  refine ⟨by omega, by omega, by omega, by omega, by omega, by omega, by omega,
    by omega⟩

/-- Characters that can occur in a `timeChars` rendering: decimal digits and
the separators. -/
theorem timeChars_classes (t : Nat) :
    ∀ c ∈ timeChars t, charDigit c < 10 ∨ c = '-' ∨ c = '_' := by
  have hb := dateFields_spec t
  have hy := natChars_digits (dateFields t).year
  have hm := pad2_digits (dateFields t).month (by omega)
  have hd := pad2_digits (dateFields t).day (by omega)
  have hh := pad2_digits (dateFields t).hour (by omega)
  have hmi := pad2_digits (dateFields t).minute (by omega)
  have hs := pad2_digits (dateFields t).second (by omega)
  intro c hc
  simp only [timeChars, dateChars, List.append_assoc, List.cons_append,
    List.mem_append, List.mem_cons] at hc
  rcases hc with h | rfl | h | rfl | h | rfl | h | rfl | h | rfl | h
  · exact Or.inl (hy c h)
  · exact Or.inr (Or.inl rfl)
  · exact Or.inl (hm c h)
  · exact Or.inr (Or.inl rfl)
  · exact Or.inl (hd c h)
  · exact Or.inr (Or.inr rfl)
  · exact Or.inl (hh c h)
  · exact Or.inr (Or.inl rfl)
  · exact Or.inl (hmi c h)
  · exact Or.inr (Or.inl rfl)
  · exact Or.inl (hs c h)

theorem dateChars_classes (t : Nat) :
    ∀ c ∈ dateChars t, charDigit c < 10 ∨ c = '-' := by
  have hb := dateFields_spec t
  have hy := natChars_digits (dateFields t).year
  have hm := pad2_digits (dateFields t).month (by omega)
  have hd := pad2_digits (dateFields t).day (by omega)
  intro c hc
  simp only [dateChars, List.append_assoc, List.cons_append,
    List.mem_append, List.mem_cons] at hc
  rcases hc with h | rfl | h | rfl | h
  · exact Or.inl (hy c h)
  · exact Or.inr rfl
  · exact Or.inl (hm c h)
  · exact Or.inr rfl
  · exact Or.inl (hd c h)

theorem timeChars_no_brace (t : Nat) : ∀ c ∈ timeChars t, c ≠ '\x7b' := by
  intro c hc
  rcases timeChars_classes t c hc with h | h | h
  · intro he; subst he; simp [charDigit] at h
  · subst h; decide
  · subst h; decide

theorem pyFormat_cons_ne (c : Char) (hc : c ≠ '\x7b') (rest : List Char)
    (args : List String) : pyFormat (c :: rest) args = c :: pyFormat rest args := by
  rw [pyFormat.eq_def]
  split
  · rename_i hle
    exact absurd hle (by simp)
  · rename_i hle
    injection hle with e1 _
    exact absurd e1 hc
  · rename_i hle hguard
    injection hle with e1 e2
    subst e1
    subst e2
    rfl

theorem pyFormat_append (l1 l2 : List Char) (args : List String)
    (h : ∀ c ∈ l1, c ≠ '\x7b') :
    pyFormat (l1 ++ l2) args = l1 ++ pyFormat l2 args := by
  induction l1 with
  | nil => simp
  | cons c t ih =>
    have hc : c ≠ '\x7b' := h c (by simp)
    have ht : ∀ x ∈ t, x ≠ '\x7b' := fun x hx => h x (by simp [hx])
    rw [List.cons_append, pyFormat_cons_ne c hc, ih ht, List.cons_append]

theorem pyFormatS_template (t : Nat) (a b c : String) :
    pyFormatS (strf_time t filenameTemplate) [a, b, c] =
      timeStr t ++ " " ++ a ++ " " ++ b ++ "." ++ c := by
  have hrun : strfRun t ['%', 'Y', '-', '%', 'm', '-', '%', 'd', '_',
      '%', 'H', '-', '%', 'M', '-', '%', 'S', ' ', '\x7b', '\x7d', ' ',
      '\x7b', '\x7d', '.', '\x7b', '\x7d'] =
      timeChars t ++ (' ' :: '\x7b' :: '\x7d' :: ' ' :: '\x7b' :: '\x7d' ::
        '.' :: '\x7b' :: '\x7d' :: []) := by
    simp [strfRun, directive, timeChars, dateChars]
  apply String.ext
  show (pyFormat (strfRun t ['%', 'Y', '-', '%', 'm', '-', '%', 'd', '_',
    '%', 'H', '-', '%', 'M', '-', '%', 'S', ' ', '\x7b', '\x7d', ' ',
    '\x7b', '\x7d', '.', '\x7b', '\x7d']) [a, b, c]) = _
  rw [hrun, pyFormat_append _ _ _ (timeChars_no_brace t)]
  have hconc : pyFormat (' ' :: '\x7b' :: '\x7d' :: ' ' :: '\x7b' :: '\x7d' ::
      '.' :: '\x7b' :: '\x7d' :: []) [a, b, c] =
      ' ' :: (a.data ++ (' ' :: (b.data ++ ('.' :: (c.data ++ []))))) := by
    simp [pyFormat]
  rw [hconc]
  simp only [String.data_append, timeStr]
  simp

/-- The output path computed by the Namer for one story item:
`<root>/<username>/<date>/<datetime><space><id><space><username>.<ext>`. -/
def namePath (root u sid : String) (t : Nat) (ext : String) : String :=
  os_path_join (os_path_join (os_path_join root u) (dateStr t))
    (timeStr t ++ " " ++ sid ++ " " ++ u ++ "." ++ ext)

theorem download_media_eq (cfg : Config) (media : Json) (u : String) (su : Json)
    (st : FsState) (j1 j2 j4 tsj murl mt : Json) (sid : String) (ts : Int)
    (h1 : media.getItem "snapId" = .ok j1)
    (h1v : j1.getItem "value" = .ok (.str sid))
    (h2 : media.getItem "snapUrls" = .ok j2)
    (h2v : j2.getItem "mediaUrl" = .ok murl)
    (h3 : media.getItem "snapMediaType" = .ok mt)
    (h4 : media.getItem "timestampInSec" = .ok j4)
    (h4v : j4.getItem "value" = .ok tsj)
    (h4i : pyInt tsj = .ok ts) :
    ∃ st2, download_media cfg media u su st =
      .ok ((murl, namePath cfg.directory_prefix u sid ts.toNat (mediaTypeExt mt)),
        st2) := by
  obtain ⟨kvs, hobj⟩ := getItem_ok_obj media j1 "snapId" h1
  simp only [download_media, h1, ok_bind, h1v, h2, h2v, h3, h4, h4v, h4i,
    strf_time_date, pyFormatS_template, pyStr]
  by_cases hd : cfg.dump_json = true
  · simp only [hd, if_true, hobj, dictCopy, ok_bind]
    exact ⟨_, rfl⟩
  · simp only [hd, if_false, Bool.false_eq_true]
    exact ⟨_, rfl⟩

/-! ### Injectivity of the computed names -/

theorem dateFields_year (t : Nat) :
    (dateFields t).year = (yearSplit (t / 86400)).1 := rfl

theorem dateFields_month (t : Nat) :
    (dateFields t).month =
      (monthSplit (monthLengths (isLeap (yearSplit (t / 86400)).1)) 1
        (yearSplit (t / 86400)).2).1 := rfl

theorem dateFields_day (t : Nat) :
    (dateFields t).day =
      (monthSplit (monthLengths (isLeap (yearSplit (t / 86400)).1)) 1
        (yearSplit (t / 86400)).2).2 + 1 := rfl

theorem dateFields_hour (t : Nat) : (dateFields t).hour = t % 86400 / 3600 := rfl

theorem dateFields_minute (t : Nat) :
    (dateFields t).minute = t % 86400 % 3600 / 60 := rfl

theorem dateFields_second (t : Nat) : (dateFields t).second = t % 86400 % 60 := rfl

theorem dateFields_inj (t1 t2 : Nat)
    (hy : (dateFields t1).year = (dateFields t2).year)
    (hmo : (dateFields t1).month = (dateFields t2).month)
    (hda : (dateFields t1).day = (dateFields t2).day)
    (hh : (dateFields t1).hour = (dateFields t2).hour)
    (hmi : (dateFields t1).minute = (dateFields t2).minute)
    (hse : (dateFields t1).second = (dateFields t2).second) : t1 = t2 := by
  obtain ⟨n1, r1, he1, hsum1, hlt1⟩ := yearSplit_spec (t1 / 86400)
  obtain ⟨n2, r2, he2, hsum2, hlt2⟩ := yearSplit_spec (t2 / 86400)
  rw [dateFields_year, dateFields_year, he1, he2] at hy
  have hn : n1 = n2 := by simpa using hy
  subst hn
  rw [dateFields_month, dateFields_month, he1, he2] at hmo
  rw [dateFields_day, dateFields_day, he1, he2] at hda
  dsimp only at hmo hda
  have hr1 : r1 < (monthLengths (isLeap (1970 + n1))).sum := by
    rw [monthLengths_sum_eq]; exact hlt1
  have hr2 : r2 < (monthLengths (isLeap (1970 + n1))).sum := by
    rw [monthLengths_sum_eq]; exact hlt2
  obtain ⟨i1, q1, hme1, hms1, hil1, hrl1⟩ :=
    monthSplit_spec (monthLengths (isLeap (1970 + n1))) 1 r1 hr1
  obtain ⟨i2, q2, hme2, hms2, hil2, hrl2⟩ :=
    monthSplit_spec (monthLengths (isLeap (1970 + n1))) 1 r2 hr2
  rw [hme1, hme2] at hmo hda
  dsimp only at hmo hda
  have hi : i1 = i2 := by omega
  subst hi
  have hq : q1 = q2 := by omega
  subst hq
  have hr : r1 = r2 := by omega
  subst hr
  have hdays : t1 / 86400 = t2 / 86400 := by
    apply yearSplit_inj; rw [he1, he2]
  rw [dateFields_hour, dateFields_hour] at hh
  rw [dateFields_minute, dateFields_minute] at hmi
  rw [dateFields_second, dateFields_second] at hse
  omega

theorem natChars_inj (a b : Nat) (h : natChars a = natChars b) : a = b := by
  have := congrArg natVal h
  rwa [natVal_natChars, natVal_natChars] at this

theorem pad2_inj (a b : Nat) (ha : a < 100) (hb : b < 100) (h : pad2 a = pad2 b) :
    a = b := by
  have := congrArg natVal h
  rwa [natVal_pad2 a ha, natVal_pad2 b hb] at this

/-- Upper bound on the broken-down year for `datetime`-representable
timestamps. -/
theorem dateFields_year_bounds (t : Nat) (ht : t ≤ 253402300799) :
    1970 ≤ (dateFields t).year ∧ (dateFields t).year < 10000 := by
  rw [dateFields_year]
  exact ⟨yearSplit_year_lb (t / 86400), yearSplit_year_ub (t / 86400) (by omega)⟩

theorem yearChars_len (t : Nat) (ht : t ≤ 253402300799) :
    (natChars (dateFields t).year).length = 4 := by
  obtain ⟨h1, h2⟩ := dateFields_year_bounds t ht
  exact natChars_len _ 3 (by omega) (by omega)

theorem dateChars_len (t : Nat) (ht : t ≤ 253402300799) :
    (dateChars t).length = 10 := by
  have hb := dateFields_spec t
  simp [dateChars, yearChars_len t ht, pad2_len _ (by omega : (dateFields t).month < 100),
    pad2_len _ (by omega : (dateFields t).day < 100)]

theorem timeChars_len (t : Nat) (ht : t ≤ 253402300799) :
    (timeChars t).length = 19 := by
  have hb := dateFields_spec t
  simp [timeChars, dateChars_len t ht,
    pad2_len _ (by omega : (dateFields t).hour < 100),
    pad2_len _ (by omega : (dateFields t).minute < 100),
    pad2_len _ (by omega : (dateFields t).second < 100)]

theorem timeChars_inj (t1 t2 : Nat) (ht1 : t1 ≤ 253402300799)
    (ht2 : t2 ≤ 253402300799) (h : timeChars t1 = timeChars t2) : t1 = t2 := by
  have hb1 := dateFields_spec t1
  have hb2 := dateFields_spec t2
  simp only [timeChars, dateChars, List.append_assoc, List.cons_append] at h
  obtain ⟨hy, h⟩ := List.append_inj h (by rw [yearChars_len t1 ht1, yearChars_len t2 ht2])
  injection h with _ h
  obtain ⟨hmo, h⟩ := List.append_inj h
    (by rw [pad2_len _ (by omega : (dateFields t1).month < 100),
      pad2_len _ (by omega : (dateFields t2).month < 100)])
  injection h with _ h
  obtain ⟨hda, h⟩ := List.append_inj h
    (by rw [pad2_len _ (by omega : (dateFields t1).day < 100),
      pad2_len _ (by omega : (dateFields t2).day < 100)])
  injection h with _ h
  obtain ⟨hh, h⟩ := List.append_inj h
    (by rw [pad2_len _ (by omega : (dateFields t1).hour < 100),
      pad2_len _ (by omega : (dateFields t2).hour < 100)])
  injection h with _ h
  obtain ⟨hmi, h⟩ := List.append_inj h
    (by rw [pad2_len _ (by omega : (dateFields t1).minute < 100),
      pad2_len _ (by omega : (dateFields t2).minute < 100)])
  injection h with _ hs
  exact dateFields_inj t1 t2 (natChars_inj _ _ hy)
    (pad2_inj _ _ (by omega) (by omega) hmo)
    (pad2_inj _ _ (by omega) (by omega) hda)
    (pad2_inj _ _ (by omega) (by omega) hh)
    (pad2_inj _ _ (by omega) (by omega) hmi)
    (pad2_inj _ _ (by omega) (by omega) hs)

/-- The separator-completed left part of a POSIX join. -/
def joinPrefix (a : String) : String :=
  if a.data = [] ∨ a.data.getLast? = some '/' then a else a ++ "/"

theorem os_path_join_eq (a b : String) (hb : ¬b.data.head? = some '/') :
    os_path_join a b = joinPrefix a ++ b := by
  rw [os_path_join, if_neg hb, joinPrefix]
  split
  · rfl
  · rfl

theorem joinPrefix_of_getLast (a : String) (hne : a.data ≠ [])
    (hl : ¬a.data.getLast? = some '/') : joinPrefix a = a ++ "/" := by
  rw [joinPrefix, if_neg]
  rintro (h | h)
  · exact hne h
  · exact hl h

theorem natChars_ne_nil (n : Nat) : natChars n ≠ [] := by
  intro he
  have h0 := natVal_natChars n
  rw [he] at h0
  simp only [natVal, List.foldl_nil] at h0
  subst h0
  simp [natChars] at he

theorem dateChars_ne_nil (t : Nat) : dateChars t ≠ [] := by
  simp [dateChars, natChars_ne_nil]

theorem timeChars_ne_nil (t : Nat) : timeChars t ≠ [] := by
  simp [timeChars, dateChars_ne_nil]

theorem dateChars_ne_slash (t : Nat) : ∀ c ∈ dateChars t, c ≠ '/' := by
  intro c hc
  rcases dateChars_classes t c hc with h | h
  · intro he; subst he; simp [charDigit] at h
  · subst h; decide

theorem timeChars_ne_slash (t : Nat) : ∀ c ∈ timeChars t, c ≠ '/' := by
  intro c hc
  rcases timeChars_classes t c hc with h | h | h
  · intro he; subst he; simp [charDigit] at h
  · subst h; decide
  · subst h; decide

theorem head_ne_slash_of_append (l1 l2 : List Char) (h1 : l1 ≠ [])
    (hcl : ∀ c ∈ l1, c ≠ '/') : ¬(l1 ++ l2).head? = some '/' := by
  cases l1 with
  | nil => exact absurd rfl h1
  | cons c t =>
    simp only [List.cons_append, List.head?_cons]
    intro h
    injection h with h
    exact hcl c (by simp) h

theorem getLast_ne_slash_of_append (l1 l2 : List Char) (h2 : l2 ≠ [])
    (hcl : ∀ c ∈ l2, c ≠ '/') : ¬(l1 ++ l2).getLast? = some '/' := by
  intro h
  rw [List.getLast?_append] at h
  cases hq : l2.getLast? with
  | none =>
    exact h2 (by simpa using hq)
  | some x =>
    rw [hq] at h
    simp only [Option.or_some] at h
    injection h with h
    subst h
    exact hcl '/' (List.mem_of_mem_getLast? (by rw [hq]; rfl)) rfl

theorem dateStr_data (t : Nat) : (dateStr t).data = dateChars t := rfl

theorem timeStr_data (t : Nat) : (timeStr t).data = timeChars t := rfl

theorem namePath_data (root u sid : String) (t : Nat) (ext : String) :
    (namePath root u sid t ext).data =
      (joinPrefix (os_path_join root u)).data ++ dateChars t ++
        '/' :: (timeChars t ++ ' ' :: (sid.data ++ ' ' :: (u.data ++
          '.' :: ext.data))) := by
  have hfname_head : ¬(timeStr t ++ " " ++ sid ++ " " ++ u ++ "." ++ ext).data.head?
      = some '/' := by
    have : (timeStr t ++ " " ++ sid ++ " " ++ u ++ "." ++ ext).data =
        timeChars t ++ ((" " ++ sid ++ " " ++ u ++ "." ++ ext).data) := by
      simp [String.data_append, timeStr_data]
    rw [this]
    exact head_ne_slash_of_append _ _ (timeChars_ne_nil t) (timeChars_ne_slash t)
  have hdate_head : ¬(dateStr t).data.head? = some '/' := by
    rw [dateStr_data, show dateChars t = dateChars t ++ [] by simp]
    exact head_ne_slash_of_append _ _ (dateChars_ne_nil t) (dateChars_ne_slash t)
  have hdir : os_path_join (os_path_join root u) (dateStr t) =
      joinPrefix (os_path_join root u) ++ dateStr t :=
    os_path_join_eq _ _ hdate_head
  have hdir_last : ¬(joinPrefix (os_path_join root u) ++ dateStr t).data.getLast?
      = some '/' := by
    rw [String.data_append, dateStr_data]
    exact getLast_ne_slash_of_append _ _ (dateChars_ne_nil t) (dateChars_ne_slash t)
  have hdir_ne : (joinPrefix (os_path_join root u) ++ dateStr t).data ≠ [] := by
    rw [String.data_append, dateStr_data]
    simp [dateChars_ne_nil]
  rw [namePath, hdir, os_path_join_eq _ _ hfname_head,
    joinPrefix_of_getLast _ hdir_ne hdir_last]
  simp [String.data_append, dateStr_data, timeStr_data]

theorem mediaTypeExt_len (j : Json) : (mediaTypeExt j).length = 3 := by
  cases j with
  | str s =>
    rw [mediaTypeExt, MEDIA_TYPE, List.lookup]
    split
    · rfl
    · rw [List.lookup]
      split
      · rfl
      · rw [List.lookup]
        rfl
  | null => rfl
  | bool b => rfl
  | num n => rfl
  | arr xs => rfl
  | obj kvs => rfl

theorem namePath_inj (root u sid1 sid2 ext1 ext2 : String) (t1 t2 : Nat)
    (ht1 : t1 ≤ 253402300799) (ht2 : t2 ≤ 253402300799)
    (he1 : ext1.length = 3) (he2 : ext2.length = 3)
    (h : namePath root u sid1 t1 ext1 = namePath root u sid2 t2 ext2) :
    t1 = t2 ∧ sid1 = sid2 := by
  have hd := congrArg String.data h
  rw [namePath_data, namePath_data, List.append_assoc, List.append_assoc] at hd
  have hd2 := List.append_cancel_left hd
  obtain ⟨hdate, hrest⟩ := List.append_inj hd2
    (by rw [dateChars_len t1 ht1, dateChars_len t2 ht2])
  injection hrest with _ hrest
  obtain ⟨htime, hrest⟩ := List.append_inj hrest
    (by rw [timeChars_len t1 ht1, timeChars_len t2 ht2])
  injection hrest with _ hrest
  have he1' : ext1.data.length = 3 := he1
  have he2' : ext2.data.length = 3 := he2
  obtain ⟨hsid, _⟩ := List.append_inj' hrest
    (by simp [List.length_cons, List.length_append, he1', he2'])
  exact ⟨timeChars_inj t1 t2 ht1 ht2 htime, String.ext hsid⟩

/-! ### Concrete fixtures for evaluation -/

/-- A concrete story item (id "a", IMAGE, timestamp 0). -/
def itemA : Json := .obj [("snapId", .obj [("value", .str "a")]),
  ("snapUrls", .obj [("mediaUrl", .str "http://a")]),
  ("snapMediaType", .str "IMAGE"),
  ("timestampInSec", .obj [("value", .str "0")])]

/-- A concrete story item (id "b", VIDEO, timestamp 0). -/
def itemB : Json := .obj [("snapId", .obj [("value", .str "b")]),
  ("snapUrls", .obj [("mediaUrl", .str "http://b")]),
  ("snapMediaType", .str "VIDEO"),
  ("timestampInSec", .obj [("value", .str "0")])]

/-- A decoded page with a user profile and a two-item snap list. -/
def pageTwoStories : Json := .obj [("props", .obj [("pageProps", .obj [
  ("userProfile", .obj [("$case", .str "k"), ("k", .null)]),
  ("story", .obj [("snapList", .arr [itemA, itemB])])])])]

/-- A decoded page whose `pageProps` lacks `userProfile`. -/
def pageNoProfile : Json := .obj [("props", .obj [("pageProps", .obj [])])]

/-- A configuration with a story cap of 1. -/
def limitCfg : Config := { directory_prefix := "/r", limit_story := 1 }

/-- A configuration rooted at `/r`. -/
def mediaCfg : Config := { directory_prefix := "/r" }

/-- The empty filesystem state. -/
def fs0 : FsState := ⟨[], []⟩

/-! ### Claim theorems -/

/-- C1: for a 200 response whose decoded payload has a `pageProps` section
with no `userProfile` field, the claim says `download` terminates by logging
and returning normally.  The code contradicts this: `util_web_user_info`
raises `UserNotFoundError`, the `except (IndexError, KeyError, ValueError)`
clause of `_web_fetch_story` does not catch it, and `download` catches only
`APIResponseError`, so the exception escapes `download` uncaught — here
evaluated on a concrete such response. -/
theorem download_userNotFound_escapes :
    download (fun _ t => [t]) (fun _ => some pageNoProfile) {} "alice"
      ⟨200, "body"⟩ fs0 = .error .userNotFound := rfl

/-- C2: the claim says at most `limit_story` download tasks are scheduled
when the cap is set.  The code stores `limit_story` in `__init__` but never
applies it: with `limit_story = 1` and two extracted stories, `download`
schedules two tasks. -/
theorem download_ignores_limit_story :
    limitCfg.limit_story = 1 ∧
    Except.map (fun r => r.tasks.length)
      (download (fun _ t => [t]) (fun _ => some pageTwoStories) limitCfg "u"
        ⟨200, "b"⟩ fs0) = .ok 2 :=
  ⟨rfl, rfl⟩

/-- C4: the extension mapping is total: every kind in the recognized-kind
table maps to its designated extension, and every other media-type value
(unrecognized string kinds and non-string values) maps to the fallback
extension without error. -/
theorem media_type_total :
    (∀ k v, (k, v) ∈ MEDIA_TYPE → mediaTypeExt (.str k) = v) ∧
    (∀ s, MEDIA_TYPE.lookup s = none → mediaTypeExt (.str s) = fallbackExt) ∧
    (∀ j, (∀ s, j ≠ .str s) → mediaTypeExt j = fallbackExt) := by
  refine ⟨?_, ?_, ?_⟩
  · intro k v h
    simp only [MEDIA_TYPE, List.mem_cons, List.not_mem_nil, or_false] at h
    rcases h with h | h
    · rw [show k = "IMAGE" by exact congrArg Prod.fst h,
        show v = "jpg" by exact congrArg Prod.snd h]
      rfl
    · rw [show k = "VIDEO" by exact congrArg Prod.fst h,
        show v = "mp4" by exact congrArg Prod.snd h]
      rfl
  · intro s h
    simp [mediaTypeExt, h]
  · intro j h
    cases j with
    | str s => exact absurd rfl (h s)
    | null => rfl
    | bool b => rfl
    | num n => rfl
    | arr xs => rfl
    | obj kvs => rfl

/-- Witness for C4 at concrete media kinds. -/
theorem media_type_total_witness :
    mediaTypeExt (.str "IMAGE") = "jpg" ∧
    mediaTypeExt (.str "GIF_UNKNOWN") = fallbackExt ∧
    mediaTypeExt (.num 3) = fallbackExt :=
  ⟨media_type_total.1 "IMAGE" "jpg" (by simp [MEDIA_TYPE]),
   media_type_total.2.1 "GIF_UNKNOWN" rfl,
   media_type_total.2.2 (.num 3) (fun s h => Json.noConfusion h)⟩

/-- C7: for a 404 response, `download` logs the user-not-found line and the
abort line, schedules zero tasks, returns normally, and the extractor is
never consulted: the outcome is identical for every `re.findall` and
`json.loads` behaviour. -/
theorem notfound_404_short_circuits (f f' : String → String → List String)
    (l l' : String → Option Json) (cfg : Config) (u : String)
    (resp : HttpResponse) (st : FsState) (h404 : resp.status_code = 404) :
    download f l cfg u resp st = download f' l' cfg u resp st ∧
    download f l cfg u resp st =
      .ok ⟨[.notFound u, .couldNotFetch u], [], st⟩ := by
  have hw : ∀ (g : String → String → List String) (m : String → Option Json),
      web_fetch_story g m u resp = ([.notFound u], .error .apiResponseError) := by
    intro g m
    rw [web_fetch_story, h404]
    rfl
  refine ⟨?_, ?_⟩
  · rw [download, download, hw f l, hw f' l']
  · rw [download, hw f l]
    rfl

/-- Witness for C7 at a concrete 404 response. -/
theorem notfound_404_short_circuits_witness :
    (404 : Nat) = 404 ∧
    download (fun _ t => [t]) (fun _ => some pageTwoStories) mediaCfg "u"
        ⟨404, "irrelevant"⟩ fs0 =
      .ok ⟨[.notFound "u", .couldNotFetch "u"], [], fs0⟩ :=
  ⟨rfl, (notfound_404_short_circuits (fun _ t => [t]) (fun _ _ => [])
    (fun _ => some pageTwoStories) (fun _ => none) mediaCfg "u"
    ⟨404, "irrelevant"⟩ fs0 rfl).2⟩

/-- C6: when the embedded-data pattern matches zero times, or its first match
fails to decode as JSON, `_web_fetch_story` logs the parse error and raises
`APIResponseError` (the malformed-response outcome), and `download` returns
normally with zero tasks scheduled. -/
theorem malformed_response_no_tasks (find_all : String → String → List String)
    (loads : String → Option Json) (cfg : Config) (u : String)
    (resp : HttpResponse) (st : FsState) (h200 : resp.status_code = 200)
    (hmal : find_all regexp_web_json resp.text = [] ∨
      ∃ x rest, find_all regexp_web_json resp.text = x :: rest ∧ loads x = none) :
    web_fetch_story find_all loads u resp =
      ([.parseError u], .error .apiResponseError) ∧
    download find_all loads cfg u resp st =
      .ok ⟨[.parseError u, .couldNotFetch u], [], st⟩ := by
  have hw : web_fetch_story find_all loads u resp =
      ([.parseError u], .error .apiResponseError) := by
    rcases hmal with hfind | ⟨x, rest, hfind, hload⟩
    · rw [web_fetch_story, h200, hfind]
      rfl
    · rw [web_fetch_story, h200, hfind]
      dsimp only [ok_bind]
      rw [hload]
      rfl
  refine ⟨hw, ?_⟩
  rw [download, hw]
  rfl

/-- Witness for C6 at a concrete body with no embedded-data match. -/
theorem malformed_response_no_tasks_witness :
    ((fun (_ _ : String) => ([] : List String)) regexp_web_json "nope" = []) ∧
    download (fun _ _ => []) (fun _ => some pageTwoStories) mediaCfg "u"
      ⟨200, "nope"⟩ fs0 =
      .ok ⟨[.parseError "u", .couldNotFetch "u"], [], fs0⟩ :=
  ⟨rfl, (malformed_response_no_tasks (fun _ _ => [])
    (fun _ => some pageTwoStories) mediaCfg "u" ⟨200, "nope"⟩ fs0 rfl
    (Or.inl rfl)).2⟩

/-- C8: a well-formed response whose `pageProps` carries a `userProfile` but
either no `story` field or an empty `snapList` yields the no-stories success
outcome: `download` returns normally having scheduled zero tasks, logging the
no-stories line unless quiet. -/
theorem no_stories_zero_tasks (find_all : String → String → List String)
    (loads : String → Option Json) (cfg : Config) (u : String)
    (resp : HttpResponse) (st : FsState) (x : String) (rest : List String)
    (j pr pp up ui : Json) (fid : String)
    (h200 : resp.status_code = 200)
    (hfind : find_all regexp_web_json resp.text = x :: rest)
    (hload : loads x = some j)
    (hpr : j.getItem "props" = .ok pr)
    (hpp : pr.getItem "pageProps" = .ok pp)
    (hk : pp.hasKey "userProfile" = .ok true)
    (hup : pp.getItem "userProfile" = .ok up)
    (hcase : up.getItem "$case" = .ok (.str fid))
    (hfield : up.getItem fid = .ok ui)
    (hstory : pp.hasKey "story" = .ok false ∨
      (pp.hasKey "story" = .ok true ∧
        ∃ stj, pp.getItem "story" = .ok stj ∧
          stj.getItem "snapList" = .ok (.arr []))) :
    download find_all loads cfg u resp st =
      .ok ⟨if cfg.quiet then [] else [.noStories u], [], st⟩ := by
  have hui : util_web_user_info j = .ok ui := by
    rw [util_web_user_info]
    simp only [hpr, ok_bind, hpp, hk, ok_bind, if_true, hup, hcase, hfield]
  have hst : util_web_story j = .ok (.arr []) := by
    rw [util_web_story]
    rcases hstory with hk2 | ⟨hk2, stj, hgs, hsl⟩
    · simp only [hpr, ok_bind, hpp, hk2]
      rfl
    · simp only [hpr, ok_bind, hpp, hk2, ok_bind, if_true, hgs, hsl]
  have hw : web_fetch_story find_all loads u resp = ([], .ok (.arr [], ui)) := by
    rw [web_fetch_story, h200, hfind]
    dsimp only [ok_bind]
    rw [hload]
    dsimp only [ok_bind]
    rw [hui]
    dsimp only [ok_bind]
    rw [hst]
    rfl
  rw [download, hw]
  cases hq : cfg.quiet <;> simp [hq, Json.isFalsy]

/-- Witness for C8 at a concrete profile-only page. -/
theorem no_stories_zero_tasks_witness :
    ((fun (_ t : String) => [t]) regexp_web_json "payload" = ["payload"]) ∧
    download (fun _ t => [t])
      (fun _ => some (.obj [("props", .obj [("pageProps", .obj [("userProfile",
        .obj [("$case", .str "k"), ("k", .null)])])])])) mediaCfg "u"
      ⟨200, "payload"⟩ fs0 = .ok ⟨[.noStories "u"], [], fs0⟩ :=
  ⟨rfl, by
    have h := no_stories_zero_tasks (fun _ t => [t])
      (fun _ => some (.obj [("props", .obj [("pageProps", .obj [("userProfile",
        .obj [("$case", .str "k"), ("k", .null)])])])])) mediaCfg "u"
      ⟨200, "payload"⟩ fs0 "payload" []
      (.obj [("props", .obj [("pageProps", .obj [("userProfile",
        .obj [("$case", .str "k"), ("k", .null)])])])])
      (.obj [("pageProps", .obj [("userProfile",
        .obj [("$case", .str "k"), ("k", .null)])])])
      (.obj [("userProfile", .obj [("$case", .str "k"), ("k", .null)])])
      (.obj [("$case", .str "k"), ("k", .null)]) .null "k"
      rfl rfl rfl rfl rfl rfl rfl rfl rfl (Or.inl rfl)
    exact h⟩

set_option maxHeartbeats 1000000 in
/-- The `(mediaUrl, outputPath)` component of `_download_media` does not
depend on the filesystem state argument. -/
theorem download_media_map_fst (cfg : Config) (media : Json) (u : String)
    (su : Json) (st1 st2 : FsState) :
    Except.map (fun r => r.1) (download_media cfg media u su st1) =
    Except.map (fun r => r.1) (download_media cfg media u su st2) := by
  simp only [download_media]
  cases h1 : media.getItem "snapId" with
  | error e => rfl
  | ok j1 =>
  simp only [ok_bind]
  cases h2 : j1.getItem "value" with
  | error e => rfl
  | ok sid =>
  simp only [ok_bind]
  cases h3 : media.getItem "snapUrls" with
  | error e => rfl
  | ok j2 =>
  simp only [ok_bind]
  cases h4 : j2.getItem "mediaUrl" with
  | error e => rfl
  | ok murl =>
  simp only [ok_bind]
  cases h5 : media.getItem "snapMediaType" with
  | error e => rfl
  | ok mt =>
  simp only [ok_bind]
  cases h6 : media.getItem "timestampInSec" with
  | error e => rfl
  | ok j4 =>
  simp only [ok_bind]
  cases h7 : j4.getItem "value" with
  | error e => rfl
  | ok tsj =>
  simp only [ok_bind]
  cases h8 : pyInt tsj with
  | error e => rfl
  | ok ts =>
  simp only [ok_bind]
  cases hd : cfg.dump_json with
  | false =>
    simp only [hd, Bool.false_eq_true, if_false]
    rfl
  | true =>
    simp only [hd, if_true]
    cases h9 : dictCopy media with
    | error e => rfl
    | ok kvs =>
      simp only [h9, ok_bind]
      rfl

/-- C9: the Namer is a pure, deterministic function of `(item, username)`:
the `(mediaUrl, outputPath)` component of `_download_media`'s outcome does
not depend on the filesystem state it is run against (and in particular is
identical across repeated invocations). -/
theorem namer_deterministic (cfg : Config) (media : Json) (u : String)
    (su : Json) (st1 st2 : FsState) :
    Except.map (fun r => r.1) (download_media cfg media u su st1) =
    Except.map (fun r => r.1) (download_media cfg media u su st2) :=
  download_media_map_fst cfg media u su st1 st2

/-! ### Frame lemmas for the sidecar copy -/

theorem err_bind {α β : Type} (e : PyErr) (f : α → Except PyErr β) :
    ((Except.error e : Except PyErr α) >>= f : Except PyErr β) = .error e := rfl

theorem makedirs_files (p : String) (st : FsState) :
    (makedirs p st).files = st.files := by
  rw [makedirs]
  split
  · rfl
  · rfl

theorem lookup_map_replace (kvs : List (String × Json)) (k k2 : String)
    (v : Json) (h : k2 ≠ k) :
    (kvs.map (fun kv => if kv.1 == k then (k, v) else kv)).lookup k2 =
      kvs.lookup k2 := by
  induction kvs with
  | nil => rfl
  | cons hd tl ih =>
    simp only [List.map_cons]
    by_cases hk : hd.1 = k
    · rw [if_pos (by simp [hk])]
      have h2 : (k2 == k) = false := by simp [h]
      have h3 : (k2 == hd.1) = false := by simp [hk, h]
      simp only [List.lookup, h2, h3]
      exact ih
    · rw [if_neg (by simp [hk])]
      by_cases hq : k2 = hd.1
      · simp only [List.lookup, show (k2 == hd.1) = true by simp [hq]]
      · simp only [List.lookup, show (k2 == hd.1) = false by simp [hq]]
        exact ih

theorem dictSet_lookup_other (kvs : List (String × Json)) (k k2 : String)
    (v : Json) (h : k2 ≠ k) :
    (dictSet kvs k v).lookup k2 = kvs.lookup k2 := by
  rw [dictSet]
  split
  · exact lookup_map_replace kvs k k2 v h
  · clear * - h
    induction kvs with
    | nil =>
      simp only [List.nil_append, List.lookup,
        show (k2 == k) = false by simp [h]]
    | cons hd tl ih =>
      simp only [List.cons_append, List.lookup]
      cases hq : k2 == hd.1 with
      | true => rfl
      | false => exact ih

theorem lookup_append_self (kvs : List (String × Json)) (k : String)
    (v : Json) (h : ∀ kv ∈ kvs, ¬kv.1 = k) :
    (kvs ++ [(k, v)]).lookup k = some v := by
  induction kvs with
  | nil => simp [List.lookup]
  | cons hd tl ih =>
    have hhd : ¬hd.1 = k := h hd (by simp)
    simp only [List.cons_append, List.lookup,
      show (k == hd.1) = false from beq_eq_false_iff_ne.mpr
        (fun e => hhd e.symm)]
    exact ih (fun kv hkv => h kv (by simp [hkv]))

theorem dictSet_lookup_self (kvs : List (String × Json)) (k : String)
    (v : Json) : (dictSet kvs k v).lookup k = some v := by
  rw [dictSet]
  split
  · rename_i hany
    induction kvs with
    | nil => simp at hany
    | cons hd tl ih =>
      simp only [List.map_cons]
      by_cases hk : hd.1 = k
      · rw [if_pos (by simp [hk])]
        simp [List.lookup]
      · rw [if_neg (by simp [hk])]
        simp only [List.lookup,
          show (k == hd.1) = false from beq_eq_false_iff_ne.mpr
            (fun e => hk e.symm)]
        apply ih
        simp only [List.any_cons, Bool.or_eq_true] at hany
        rcases hany with h1 | h1
        · exact absurd (by simpa using h1) hk
        · simpa using h1
  · rename_i hany
    apply lookup_append_self
    intro kv hkv he
    exact hany (by simp only [List.any_eq_true]; exact ⟨kv, hkv, by simp [he]⟩)

/-- C10: with sidecar dumping enabled, the payload written by
`_download_media` is built from a shallow copy of the item's mapping with
`snapUser` added only to that copy: the sidecar holds `snapUser` plus exactly
the item's own entries under every other key, and the `(mediaUrl, outputPath)`
result is the same as with dumping disabled — the item's mapping itself is
never updated. -/
theorem sidecar_preserves_item (cfg : Config) (media : Json) (u : String)
    (su : Json) (st st2 : FsState) (kvs : List (String × Json)) (url : Json)
    (out : String)
    (hdump : cfg.dump_json = true)
    (hobj : media = .obj kvs)
    (hr : download_media cfg media u su st = .ok ((url, out), st2)) :
    (∃ fname, st2.files =
      (fname, Json.obj (dictSet kvs "snapUser" su)) :: st.files) ∧
    (dictSet kvs "snapUser" su).lookup "snapUser" = some su ∧
    (∀ k2, k2 ≠ "snapUser" →
      (dictSet kvs "snapUser" su).lookup k2 = kvs.lookup k2) ∧
    Except.map (fun r => r.1)
        (download_media { cfg with dump_json := false } media u su st) =
      .ok (url, out) := by
  simp only [download_media, hobj] at hr
  rcases hff1 : (Json.obj kvs).getItem "snapId" with e | j1
  · rw [hff1, err_bind] at hr
    exact absurd hr (by simp)
  rw [hff1, ok_bind] at hr
  rcases hff2 : j1.getItem "value" with e | sid
  · rw [hff2, err_bind] at hr
    exact absurd hr (by simp)
  rw [hff2, ok_bind] at hr
  rcases hff3 : (Json.obj kvs).getItem "snapUrls" with e | j2
  · rw [hff3, err_bind] at hr
    exact absurd hr (by simp)
  rw [hff3, ok_bind] at hr
  rcases hff4 : j2.getItem "mediaUrl" with e | murl
  · rw [hff4, err_bind] at hr
    exact absurd hr (by simp)
  rw [hff4, ok_bind] at hr
  rcases hff5 : (Json.obj kvs).getItem "snapMediaType" with e | mt
  · rw [hff5, err_bind] at hr
    exact absurd hr (by simp)
  rw [hff5, ok_bind] at hr
  rcases hff6 : (Json.obj kvs).getItem "timestampInSec" with e | j4
  · rw [hff6, err_bind] at hr
    exact absurd hr (by simp)
  rw [hff6, ok_bind] at hr
  rcases hff7 : j4.getItem "value" with e | tsj
  · rw [hff7, err_bind] at hr
    exact absurd hr (by simp)
  rw [hff7, ok_bind] at hr
  rcases hff8 : pyInt tsj with e | ts
  · rw [hff8, err_bind] at hr
    exact absurd hr (by simp)
  rw [hff8, ok_bind] at hr
  rw [if_pos hdump] at hr
  simp only [dictCopy, ok_bind] at hr
  injection hr with hr
  injection hr with hpair hstate
  injection hpair with hu ho
  refine ⟨?_, dictSet_lookup_self kvs "snapUser" su,
    fun k2 h => dictSet_lookup_other kvs "snapUser" k2 su h, ?_⟩
  · refine ⟨os_path_join (os_path_join (os_path_join cfg.directory_prefix u)
      (strf_time ts.toNat "%Y-%m-%d"))
      (pyFormatS (strf_time ts.toNat filenameTemplate)
        [pyStr sid, u, mediaTypeExt mt] ++ ".json"), ?_⟩
    rw [← hstate]
    simp only [dump_response, makedirs_files]
  · simp only [download_media, hobj, hff1, hff2, hff3, hff4, hff5, hff6, hff7,
      hff8, ok_bind]
    rw [if_neg (fun h => Bool.false_ne_true h)]
    rw [← hu, ← ho]
    rfl

/-- C3 (counterexample): at a concrete well-formed item the Namer's output
path uses space separators between the formatted timestamp, the item id and
the username — not the underscore separators the claim states. -/
theorem namer_separator_counterexample :
    Except.map (fun r => r.1.2) (download_media mediaCfg itemA "u" .null fs0)
      = .ok "/r/u/1970-01-01/1970-01-01_00-00-00 a u.jpg" ∧
    ("/r/u/1970-01-01/1970-01-01_00-00-00 a u.jpg" : String) ≠
      "/r/u/1970-01-01/1970-01-01_00-00-00_a_u.jpg" :=
  ⟨rfl, by decide⟩

/-- C3 (amended): for every well-formed story item the output path is
`<root>/<username>/<%Y-%m-%d date>/<%Y-%m-%d_%H-%M-%S timestamp><space>
<id><space><username>.<extension>`: the separators inside the filename are
spaces (the underscore joins only date and time within the timestamp). -/
theorem namer_path_shape (cfg : Config) (media : Json) (u : String) (su : Json)
    (st : FsState) (j1 j2 j4 tsj murl mt : Json) (sid : String) (ts : Int)
    (h1 : media.getItem "snapId" = .ok j1)
    (h1v : j1.getItem "value" = .ok (.str sid))
    (h2 : media.getItem "snapUrls" = .ok j2)
    (h2v : j2.getItem "mediaUrl" = .ok murl)
    (h3 : media.getItem "snapMediaType" = .ok mt)
    (h4 : media.getItem "timestampInSec" = .ok j4)
    (h4v : j4.getItem "value" = .ok tsj)
    (h4i : pyInt tsj = .ok ts) :
    ∃ st2, download_media cfg media u su st =
      .ok ((murl, os_path_join (os_path_join (os_path_join cfg.directory_prefix u)
          (strf_time ts.toNat "%Y-%m-%d"))
        (strf_time ts.toNat "%Y-%m-%d_%H-%M-%S" ++ " " ++ sid ++ " " ++ u ++
          "." ++ mediaTypeExt mt)), st2) := by
  obtain ⟨st2, he⟩ := download_media_eq cfg media u su st j1 j2 j4 tsj murl mt
    sid ts h1 h1v h2 h2v h3 h4 h4v h4i
  refine ⟨st2, ?_⟩
  rw [he]
  simp only [namePath, strf_time_date, strf_time_datetime]

/-- Witness for the amended C3 at a concrete item. -/
theorem namer_path_shape_witness :
    (itemA.getItem "snapId" = .ok (.obj [("value", .str "a")])) ∧
    (pyInt (.str "0") = .ok 0) ∧
    ∃ st2, download_media mediaCfg itemA "u" .null fs0 =
      .ok ((.str "http://a", os_path_join (os_path_join (os_path_join
          mediaCfg.directory_prefix "u") (strf_time (0 : Int).toNat "%Y-%m-%d"))
        (strf_time (0 : Int).toNat "%Y-%m-%d_%H-%M-%S" ++ " " ++ "a" ++ " " ++
          "u" ++ "." ++ mediaTypeExt (.str "IMAGE"))), st2) :=
  ⟨rfl, rfl, namer_path_shape mediaCfg itemA "u" .null fs0
    (.obj [("value", .str "a")]) (.obj [("mediaUrl", .str "http://a")])
    (.obj [("value", .str "0")]) (.str "0") (.str "http://a") (.str "IMAGE")
    "a" 0 rfl rfl rfl rfl rfl rfl rfl rfl⟩

/-- C5: for a fixed username, two well-formed story items (timestamps in the
`datetime`-representable range) whose `(timestampSeconds, id)` pairs differ
produce distinct output paths. -/
theorem namer_paths_distinct (cfg : Config) (u : String)
    (m1 m2 su1 su2 : Json) (st1 st2 st1' st2' : FsState)
    (j11 j12 j14 tsj1 murl1 mt1 j21 j22 j24 tsj2 murl2 mt2 url1 url2 : Json)
    (sid1 sid2 : String) (ts1 ts2 : Int) (p1 p2 : String)
    (h11 : m1.getItem "snapId" = .ok j11)
    (h11v : j11.getItem "value" = .ok (.str sid1))
    (h12 : m1.getItem "snapUrls" = .ok j12)
    (h12v : j12.getItem "mediaUrl" = .ok murl1)
    (h13 : m1.getItem "snapMediaType" = .ok mt1)
    (h14 : m1.getItem "timestampInSec" = .ok j14)
    (h14v : j14.getItem "value" = .ok tsj1)
    (h14i : pyInt tsj1 = .ok ts1)
    (h21 : m2.getItem "snapId" = .ok j21)
    (h21v : j21.getItem "value" = .ok (.str sid2))
    (h22 : m2.getItem "snapUrls" = .ok j22)
    (h22v : j22.getItem "mediaUrl" = .ok murl2)
    (h23 : m2.getItem "snapMediaType" = .ok mt2)
    (h24 : m2.getItem "timestampInSec" = .ok j24)
    (h24v : j24.getItem "value" = .ok tsj2)
    (h24i : pyInt tsj2 = .ok ts2)
    (hts1 : 0 ≤ ts1) (hts1b : ts1 < 253402300800)
    (hts2 : 0 ≤ ts2) (hts2b : ts2 < 253402300800)
    (hne : ¬(ts1 = ts2 ∧ sid1 = sid2))
    (hr1 : download_media cfg m1 u su1 st1 = .ok ((url1, p1), st1'))
    (hr2 : download_media cfg m2 u su2 st2 = .ok ((url2, p2), st2')) :
    p1 ≠ p2 := by
  obtain ⟨sA, heA⟩ := download_media_eq cfg m1 u su1 st1 j11 j12 j14 tsj1
    murl1 mt1 sid1 ts1 h11 h11v h12 h12v h13 h14 h14v h14i
  obtain ⟨sB, heB⟩ := download_media_eq cfg m2 u su2 st2 j21 j22 j24 tsj2
    murl2 mt2 sid2 ts2 h21 h21v h22 h22v h23 h24 h24v h24i
  have e1 := heA.symm.trans hr1
  simp only [Except.ok.injEq, Prod.mk.injEq] at e1
  obtain ⟨⟨_, hp1⟩, _⟩ := e1
  have e2 := heB.symm.trans hr2
  simp only [Except.ok.injEq, Prod.mk.injEq] at e2
  obtain ⟨⟨_, hp2⟩, _⟩ := e2
  intro hpp
  rw [← hp1, ← hp2] at hpp
  obtain ⟨hteq, hsideq⟩ := namePath_inj cfg.directory_prefix u sid1 sid2
    (mediaTypeExt mt1) (mediaTypeExt mt2) ts1.toNat ts2.toNat
    (by omega) (by omega) (mediaTypeExt_len mt1) (mediaTypeExt_len mt2) hpp
  exact hne ⟨by omega, hsideq⟩

/-- Witness for C5 at two concrete items sharing a timestamp but with
different ids. -/
theorem namer_paths_distinct_witness :
    (¬((0 : Int) = 0 ∧ "a" = "b")) ∧
    ("/r/u/1970-01-01/1970-01-01_00-00-00 a u.jpg" : String) ≠
      "/r/u/1970-01-01/1970-01-01_00-00-00 b u.mp4" :=
  ⟨by decide,
   namer_paths_distinct mediaCfg "u" itemA itemB .null .null fs0 fs0
    ⟨["/r/u/1970-01-01"], []⟩ ⟨["/r/u/1970-01-01"], []⟩
    (.obj [("value", .str "a")]) (.obj [("mediaUrl", .str "http://a")])
    (.obj [("value", .str "0")]) (.str "0") (.str "http://a") (.str "IMAGE")
    (.obj [("value", .str "b")]) (.obj [("mediaUrl", .str "http://b")])
    (.obj [("value", .str "0")]) (.str "0") (.str "http://b") (.str "VIDEO")
    (.str "http://a") (.str "http://b") "a" "b" 0 0
    "/r/u/1970-01-01/1970-01-01_00-00-00 a u.jpg"
    "/r/u/1970-01-01/1970-01-01_00-00-00 b u.mp4"
    rfl rfl rfl rfl rfl rfl rfl rfl
    rfl rfl rfl rfl rfl rfl rfl rfl
    (by decide) (by decide) (by decide) (by decide) (by decide)
    rfl rfl⟩

/-- A configuration with sidecar dumping enabled. -/
def dumpCfg : Config := { directory_prefix := "/r", dump_json := true }

/-- The entry list of `itemA`. -/
def itemAKvs : List (String × Json) := [("snapId", .obj [("value", .str "a")]),
  ("snapUrls", .obj [("mediaUrl", .str "http://a")]),
  ("snapMediaType", .str "IMAGE"),
  ("timestampInSec", .obj [("value", .str "0")])]

/-- Witness for C10 at a concrete item with dumping enabled. -/
theorem sidecar_preserves_item_witness :
    dumpCfg.dump_json = true ∧
    ((∃ fname,
        (FsState.mk ["/r/u/1970-01-01"]
          [("/r/u/1970-01-01/1970-01-01_00-00-00 a u.jpg.json",
            Json.obj (itemAKvs ++ [("snapUser", Json.str "su")]))]).files =
          (fname, Json.obj (dictSet itemAKvs "snapUser" (.str "su"))) ::
            fs0.files) ∧
      (dictSet itemAKvs "snapUser" (.str "su")).lookup "snapUser" =
        some (.str "su") ∧
      (∀ k2, k2 ≠ "snapUser" →
        (dictSet itemAKvs "snapUser" (.str "su")).lookup k2 =
          itemAKvs.lookup k2) ∧
      Except.map (fun r => r.1)
          (download_media { dumpCfg with dump_json := false } itemA "u"
            (.str "su") fs0) =
        .ok (.str "http://a", "/r/u/1970-01-01/1970-01-01_00-00-00 a u.jpg")) :=
  ⟨rfl, sidecar_preserves_item dumpCfg itemA "u" (.str "su") fs0
    (FsState.mk ["/r/u/1970-01-01"]
      [("/r/u/1970-01-01/1970-01-01_00-00-00 a u.jpg.json",
        Json.obj (itemAKvs ++ [("snapUser", Json.str "su")]))])
    itemAKvs (.str "http://a") "/r/u/1970-01-01/1970-01-01_00-00-00 a u.jpg"
    rfl rfl rfl⟩

end SnapchatDLP